import Mathlib

/-!
Verification of the CV-Analyzer AI service (`src/ai-service/app`), a shallow
embedding of its response-normalization core (`agent.py`), request validation
(`models.py`), configuration (`config.py`) and the `/analyze` endpoint's
error mapping (`main.py`).

Python strings are modelled as `List Char`; Python `str.find`, slicing with
negative indices, `str.strip` and the `in` substring test are embedded
directly.  `json.loads` is embedded as a fuelled recursive-descent parser
producing a `Json` value (numbers as exact decimals plus the `NaN` and
`±Infinity` specials the module accepts by default, objects as association
lists with Python-dict replace-on-duplicate semantics).  Exceptions are
modelled with `Except`.
-/

namespace CVAnalyzer

/-- Convert a Lean string literal to the `List Char` model of a Python `str`. -/
def sl (s : String) : List Char := s.toList

/-- The whitespace characters removed by Python `str.strip()` (ASCII part). -/
def isPySpace (c : Char) : Bool :=
  c = ' ' || c = '\t' || c = '\n' || c = '\r' || c = '\x0b' || c = '\x0c'

/-- Python `str.strip()`: drop leading and trailing whitespace. -/
def pyStrip (s : List Char) : List Char :=
  ((s.dropWhile isPySpace).reverse.dropWhile isPySpace).reverse

/-- First index at which `sub` occurs in `s` (Python `str.find(sub)`,
    successful case), as an `Option`. -/
def findIdx0 (sub : List Char) : List Char → Option Nat
  | [] => if sub.isPrefixOf [] then some 0 else none
  | a :: t =>
    if sub.isPrefixOf (a :: t) then some 0
    else (findIdx0 sub t).map (· + 1)

/-- Python `str.find(sub, start)`: lowest index `≥ start` where `sub`
    occurs, else `-1`. -/
def pyFindFrom (s sub : List Char) (start : Nat) : Int :=
  match findIdx0 sub (s.drop start) with
  | some i => ((i + start : Nat) : Int)
  | none => -1

/-- Python substring test `sub in s`. -/
def containsSub (s sub : List Char) : Bool :=
  (findIdx0 sub s).isSome

/-- Normalization of one Python slice bound against a string of length
    `s.length`: negative indices count from the end, and bounds are clamped
    into `[0, len]`. -/
def pyBound (s : List Char) (x : Int) : Int :=
  if x < 0 then max (x + s.length) 0 else min x s.length

/-- Python slice `s[a:b]` with possibly negative bounds. -/
def pySlice (s : List Char) (a b : Int) : List Char :=
  if pyBound s a < pyBound s b then
    (s.drop (pyBound s a).toNat).take (pyBound s b - pyBound s a).toNat
  else []

/-! ### JSON values (the result of Python `json.loads`) -/

/-- A JSON number, represented exactly as the decimal
    `mant / 10 ^ exp`.  Python's `int`/`float` distinction is kept only up
    to this exact value; numeric comparisons between Python numbers are
    exact value comparisons, which this representation reproduces. -/
structure JNum where
  mant : Int
  exp : Nat
deriving DecidableEq, Repr

/-- Python `a <= b` on numbers (exact comparison of the decimal values). -/
def JNum.le (a b : JNum) : Bool :=
  decide (a.mant * (10 : Int) ^ b.exp ≤ b.mant * (10 : Int) ^ a.exp)

/-- Python `a < b` on numbers. -/
def JNum.lt (a b : JNum) : Bool :=
  decide (a.mant * (10 : Int) ^ b.exp < b.mant * (10 : Int) ^ a.exp)

/-- A Python number as produced by `json.loads`: an exact finite decimal,
    or one of the IEEE specials `nan` and `±inf` that the module's default
    parser accepts via its nonstandard `NaN`/`Infinity`/`-Infinity`
    constants. -/
inductive PyNum where
  | fin : JNum → PyNum
  | nan : PyNum
  | inf : Bool → PyNum
deriving DecidableEq, Repr

/-- Python `a < b` on numbers, with IEEE semantics on the specials: every
    comparison with `nan` is false, `-inf` is below and `+inf` above every
    other non-`nan` value. -/
def pyLtNum : PyNum → PyNum → Bool
  | .nan, _ => false
  | _, .nan => false
  | .inf true, .inf true => false
  | .inf true, _ => true
  | .inf false, _ => false
  | .fin _, .inf true => false
  | .fin _, .inf false => true
  | .fin a, .fin b => JNum.lt a b

/-- Python `a <= b` on numbers, with IEEE semantics on the specials. -/
def pyLeNum : PyNum → PyNum → Bool
  | .nan, _ => false
  | _, .nan => false
  | .inf true, _ => true
  | .inf false, .inf false => true
  | .inf false, _ => false
  | .fin _, .inf false => true
  | .fin _, .inf true => false
  | .fin a, .fin b => JNum.le a b

/-- Python `min(a, b)` on two numbers: the second argument only when it is
    strictly smaller (so `min(100, nan) = 100`, as in CPython). -/
def pyMinNum (a b : PyNum) : PyNum := if pyLtNum b a then b else a

/-- Python `max(a, b)` on two numbers: the second argument only when it is
    strictly greater. -/
def pyMaxNum (a b : PyNum) : PyNum := if pyLtNum a b then b else a

/-- The clamp `max(0, min(100, score))` of `agent.py` line 218. -/
def clampNum (q : PyNum) : PyNum :=
  pyMaxNum (.fin ⟨0, 0⟩) (pyMinNum (.fin ⟨100, 0⟩) q)

/-- A parsed JSON value.  Objects are association lists in insertion order
    with Python-dict duplicate-key semantics. -/
inductive Json where
  | null : Json
  | bool : Bool → Json
  | num : PyNum → Json
  | str : List Char → Json
  | arr : List Json → Json
  | obj : List (List Char × Json) → Json

instance : Inhabited Json := ⟨Json.null⟩

/-- Python-dict assignment `d[k] = v` on an association list: replace the
    value at the first occurrence of `k`, else append. -/
def insertKV (kvs : List (List Char × Json)) (k : List Char) (v : Json) :
    List (List Char × Json) :=
  match kvs with
  | [] => [(k, v)]
  | (k', v') :: t => if k' = k then (k', v) :: t else (k', v') :: insertKV t k v

/-- Python-dict lookup `d[k]` on an association list. -/
def lookupKey (kvs : List (List Char × Json)) (k : List Char) : Option Json :=
  (kvs.find? (fun p => decide (p.1 = k))).map (·.2)

/-- Python-dict key membership `k in d`. -/
def hasKey (kvs : List (List Char × Json)) (k : List Char) : Bool :=
  kvs.any (fun p => decide (p.1 = k))

/-! ### Embedding of `json.loads`

A fuelled recursive-descent parser for the JSON grammar accepted by Python's
`json.loads` (strict mode, including the nonstandard `NaN`/`Infinity`/
`-Infinity` constants the module accepts by default). -/

/-- JSON inter-token whitespace (space, tab, newline, carriage return). -/
def isJsonWs (c : Char) : Bool :=
  c = ' ' || c = '\t' || c = '\n' || c = '\r'

/-- Skip JSON whitespace. -/
def skipWs (s : List Char) : List Char := s.dropWhile isJsonWs

/-- Numeric value of a decimal digit. -/
def digitVal (c : Char) : Nat := c.toNat - '0'.toNat

/-- Decimal digits to a natural number. -/
def digitsToNat (ds : List Char) : Nat :=
  ds.foldl (fun acc c => acc * 10 + digitVal c) 0

/-- Integer part of a JSON number: `0` or a nonzero digit followed by
    digits (leading zeros are rejected, as in Python's `json`). -/
def parseIntPart : List Char → Option (Nat × List Char)
  | '0' :: t => some (0, t)
  | c :: t =>
    if c.isDigit then
      some (digitsToNat (c :: t.takeWhile Char.isDigit), t.dropWhile Char.isDigit)
    else none
  | [] => none

/-- Optional fraction part `.digits` of a JSON number; returns the
    fraction digits (empty when absent) and the rest. -/
def parseFrac : List Char → Option (List Char × List Char)
  | '.' :: t =>
    let ds := t.takeWhile Char.isDigit
    if ds.isEmpty then none else some (ds, t.dropWhile Char.isDigit)
  | s => some (([] : List Char), s)

/-- Optional exponent part `[eE][+-]?digits`; returns the signed exponent
    (`0` when absent) and the rest. -/
def parseExp : List Char → Option (Int × List Char)
  | [] => some ((0 : Int), ([] : List Char))
  | c :: t =>
    if c = 'e' || c = 'E' then
      let su : Int × List Char :=
        match t with
        | '+' :: r => (1, r)
        | '-' :: r => (-1, r)
        | _ => (1, t)
      let ds := su.2.takeWhile Char.isDigit
      if ds.isEmpty then none
      else some (su.1 * (digitsToNat ds : Int), su.2.dropWhile Char.isDigit)
    else some ((0 : Int), c :: t)

/-- Parse a JSON number into an exact decimal. -/
def parseNumber (s : List Char) : Option (JNum × List Char) :=
  let ns : Bool × List Char := match s with
    | '-' :: t => (true, t)
    | _ => (false, s)
  match parseIntPart ns.2 with
  | none => none
  | some (ip, r1) =>
    match parseFrac r1 with
    | none => none
    | some (fds, r2) =>
      match parseExp r2 with
      | none => none
      | some (e, r3) =>
        let mant0 : Int := ((ip * 10 ^ fds.length + digitsToNat fds : Nat) : Int)
        let mant1 : Int := if ns.1 then -mant0 else mant0
        some
          (if 0 ≤ e then ⟨mant1 * 10 ^ e.toNat, fds.length⟩
           else ⟨mant1, fds.length + (-e).toNat⟩, r3)

/-- Value of a hexadecimal digit. -/
def hexVal (c : Char) : Option Nat :=
  if c.isDigit then some (c.toNat - '0'.toNat)
  else if 'a' ≤ c ∧ c ≤ 'f' then some (c.toNat - 'a'.toNat + 10)
  else if 'A' ≤ c ∧ c ≤ 'F' then some (c.toNat - 'A'.toNat + 10)
  else none

/-- JSON short escape sequences. -/
def escChar (c : Char) : Option Char :=
  if c = '"' then some '"'
  else if c = '\\' then some '\\'
  else if c = '/' then some '/'
  else if c = 'b' then some '\x08'
  else if c = 'f' then some '\x0c'
  else if c = 'n' then some '\n'
  else if c = 'r' then some '\r'
  else if c = 't' then some '\t'
  else none

/-- Parse the body of a JSON string after the opening quote (fuelled;
    strict mode: raw control characters are rejected). -/
def parseStringBody : Nat → List Char → List Char → Option (List Char × List Char)
  | 0, _, _ => none
  | _ + 1, [], _ => none
  | fuel + 1, c :: t, acc =>
    if c = '"' then some (acc.reverse, t)
    else if c = '\\' then
      match t with
      | [] => none
      | e :: t2 =>
        if e = 'u' then
          match t2 with
          | h1 :: h2 :: h3 :: h4 :: r =>
            match hexVal h1, hexVal h2, hexVal h3, hexVal h4 with
            | some a, some b, some c2, some d =>
              parseStringBody fuel r
                (Char.ofNat (((a * 16 + b) * 16 + c2) * 16 + d) :: acc)
            | _, _, _, _ => none
          | _ => none
        else
          match escChar e with
          | some ch => parseStringBody fuel t2 (ch :: acc)
          | none => none
    else if c.toNat < 32 then none
    else parseStringBody fuel t (c :: acc)

mutual

/-- Parse a JSON value (fuelled). -/
def parseValue : Nat → List Char → Option (Json × List Char)
  | 0, _ => none
  | fuel + 1, s =>
    let s1 := skipWs s
    match s1 with
    | [] => none
    | c :: t =>
      if c = '"' then
        match parseStringBody (t.length + 1) t [] with
        | some (cs, rest) => some (.str cs, rest)
        | none => none
      else if c = '[' then parseArrayStart fuel t
      else if c = '{' then parseObjStart fuel t
      else if (sl "null").isPrefixOf s1 then some (.null, s1.drop 4)
      else if (sl "true").isPrefixOf s1 then some (.bool true, s1.drop 4)
      else if (sl "false").isPrefixOf s1 then some (.bool false, s1.drop 5)
      else if (sl "NaN").isPrefixOf s1 then some (.num .nan, s1.drop 3)
      else if (sl "Infinity").isPrefixOf s1 then
        some (.num (.inf false), s1.drop 8)
      else if (sl "-Infinity").isPrefixOf s1 then
        some (.num (.inf true), s1.drop 9)
      else
        match parseNumber s1 with
        | some (q, rest) => some (.num (.fin q), rest)
        | none => none

/-- Parse the rest of a JSON array after `[`. -/
def parseArrayStart : Nat → List Char → Option (Json × List Char)
  | 0, _ => none
  | fuel + 1, s =>
    match skipWs s with
    | ']' :: t => some (.arr [], t)
    | s1 => parseArrayItems fuel s1 []

/-- Parse one or more comma-separated array items. -/
def parseArrayItems : Nat → List Char → List Json → Option (Json × List Char)
  | 0, _, _ => none
  | fuel + 1, s, acc =>
    match parseValue fuel s with
    | none => none
    | some (v, rest) =>
      match skipWs rest with
      | ',' :: t => parseArrayItems fuel t (v :: acc)
      | ']' :: t => some (.arr (v :: acc).reverse, t)
      | _ => none

/-- Parse the rest of a JSON object after `{`. -/
def parseObjStart : Nat → List Char → Option (Json × List Char)
  | 0, _ => none
  | fuel + 1, s =>
    match skipWs s with
    | '}' :: t => some (.obj [], t)
    | s1 => parseObjItems fuel s1 []

/-- Parse one or more comma-separated `"key": value` object members,
    accumulating with Python-dict duplicate-key semantics. -/
def parseObjItems : Nat → List Char → List (List Char × Json) →
    Option (Json × List Char)
  | 0, _, _ => none
  | fuel + 1, s, acc =>
    match skipWs s with
    | '"' :: t =>
      match parseStringBody (t.length + 1) t [] with
      | none => none
      | some (key, r1) =>
        match skipWs r1 with
        | ':' :: r2 =>
          match parseValue fuel r2 with
          | none => none
          | some (v, r3) =>
            match skipWs r3 with
            | ',' :: r4 => parseObjItems fuel r4 (insertKV acc key v)
            | '}' :: r4 => some (.obj (insertKV acc key v), r4)
            | _ => none
        | _ => none
    | _ => none

end

/-- Embedding of Python `json.loads`: parse a complete JSON document,
    requiring the whole input (up to trailing whitespace) to be consumed. -/
def jsonLoads (s : List Char) : Option Json :=
  match parseValue (3 * s.length + 8) s with
  | some (v, rest) => if (skipWs rest).isEmpty then some v else none
  | none => none

/-! ### The response normalizer `ResumeAnalyzerAgent._parse_agent_response` -/

/-- Python exceptions relevant to this code. -/
inductive PyErr where
  | valueError (msg : List Char)
  | typeError
  | keyError
deriving DecidableEq, Repr

/-- The opening fence marker with language tag. -/
def fenceJson : List Char := sl "```json"

/-- The plain fence marker. -/
def fence3 : List Char := sl "```"

/-- The code-fence stripping step of `_parse_agent_response`
    (`agent.py` lines 196–205). -/
def extractJsonText (response_text : List Char) : List Char :=
  if containsSub response_text fenceJson then
    let json_start : Int := pyFindFrom response_text fenceJson 0 + 7
    let json_end : Int := pyFindFrom response_text fence3 json_start.toNat
    pyStrip (pySlice response_text json_start json_end)
  else if containsSub response_text fence3 then
    let json_start : Int := pyFindFrom response_text fence3 0 + 3
    let json_end : Int := pyFindFrom response_text fence3 json_start.toNat
    pyStrip (pySlice response_text json_start json_end)
  else pyStrip response_text

/-- The fixed fallback analysis returned when the reply is not valid JSON
    (`agent.py` lines 227–238). -/
def fallbackAnalysis : Json :=
  .obj
    [ (sl "score", .num (.fin ⟨70, 0⟩)),
      (sl "optimized_content",
        .str (sl "Analysis parsing failed. Original content returned.")),
      (sl "suggestions",
        .arr
          [ .obj
              [ (sl "category", .str (sl "System")),
                (sl "description",
                  .str (sl "Unable to parse AI response. Please try again.")),
                (sl "priority", .num (.fin ⟨1, 0⟩)) ] ]),
      (sl "reasoning", .str (sl "Response parsing error")) ]

/-- Python `field not in analysis` for an arbitrary parsed value:
    key membership on a dict, element equality on a list, substring test
    on a string, `TypeError` otherwise. -/
def pyNotIn (field : List Char) (v : Json) : Except PyErr Bool :=
  match v with
  | .obj kvs => .ok (!hasKey kvs field)
  | .arr xs => .ok (!xs.any (fun x => match x with
      | .str s => decide (s = field)
      | _ => false))
  | .str s => .ok (!containsSub s field)
  | _ => .error .typeError

/-- The required result fields, in the order checked by the code. -/
def requiredFields : List (List Char) :=
  [sl "score", sl "optimized_content", sl "suggestions"]

/-- The `for field in required_fields` loop of `_parse_agent_response`
    (`agent.py` lines 210–213): raise `ValueError` naming the first
    missing field. -/
def checkRequired : List (List Char) → Json → Except PyErr Unit
  | [], _ => .ok ()
  | f :: rest, analysis =>
    match pyNotIn f analysis with
    | .error e => .error e
    | .ok true => .error (.valueError (sl "Missing required field: " ++ f))
    | .ok false => checkRequired rest analysis

/-- Python `analysis[k]` for a parsed value: dict lookup, `TypeError` for a
    string index into anything else. -/
def getItem (v : Json) (k : List Char) : Except PyErr Json :=
  match v with
  | .obj kvs =>
    match lookupKey kvs k with
    | some x => .ok x
    | none => .error .keyError
  | _ => .error .typeError

/-- Python numeric coercion used by `0 <= x <= 100`: numbers compare as
    themselves, `bool` as 0/1, everything else raises `TypeError`. -/
def jsonAsNum (v : Json) : Option PyNum :=
  match v with
  | .num q => some q
  | .bool b => some (.fin (if b then ⟨1, 0⟩ else ⟨0, 0⟩))
  | _ => none

/-- Python `analysis[k] = v` for a parsed value. -/
def setItem (j : Json) (k : List Char) (v : Json) : Except PyErr Json :=
  match j with
  | .obj kvs => .ok (.obj (insertKV kvs k v))
  | _ => .error .typeError

/-- The validation and clamping applied to a successfully decoded reply
    (`agent.py` lines 210–220). -/
def normalizeDecoded (analysis : Json) : Except PyErr Json :=
  match checkRequired requiredFields analysis with
  | .error e => .error e
  | .ok _ =>
    match getItem analysis (sl "score") with
    | .error e => .error e
    | .ok sv =>
      match jsonAsNum sv with
      | none => .error .typeError
      | some q =>
        if (pyLeNum (.fin ⟨0, 0⟩) q && pyLeNum q (.fin ⟨100, 0⟩)) = true then
          .ok analysis
        else
          match setItem analysis (sl "score") (.num (clampNum q)) with
          | .error e => .error e
          | .ok a => .ok a

/-- What `_parse_agent_response` does after extracting the JSON text:
    decode it, returning the fallback when decoding fails
    (`except json.JSONDecodeError`), and otherwise validate and clamp
    (where a missing field raises `ValueError`, which the `except` clause
    does not catch). -/
def normalizeParsed (decoded : Option Json) : Except PyErr Json :=
  match decoded with
  | none => .ok fallbackAnalysis
  | some analysis => normalizeDecoded analysis

/-- Embedding of `ResumeAnalyzerAgent._parse_agent_response`
    (`agent.py` lines 184–238). -/
def parseAgentResponse (response_text : List Char) : Except PyErr Json :=
  normalizeParsed (jsonLoads (extractJsonText response_text))

/-! ### The orchestrator `ResumeAnalyzerAgent.analyze_resume` -/

/-- `Settings.max_analysis_length` default (`config.py` line 150). -/
def max_analysis_length : Nat := 10000

/-- `Settings.request_timeout` default, in seconds (`config.py` line 151). -/
def request_timeout : Nat := 30

/-- The truncation step of `analyze_resume` (`agent.py` lines 128–130):
    `content = content[:max_analysis_length]` when too long. -/
def truncateContent (maxLen : Nat) (content : List Char) : List Char :=
  if content.length > maxLen then content.take maxLen else content

/-- Text before the embedded content in the analysis prompt
    (`agent.py` lines 133–137). -/
def promptPrefix : List Char :=
  sl "Analyze this resume and provide a comprehensive evaluation:\n\nRESUME CONTENT:\n---\n"

/-- Text after the embedded content in the analysis prompt
    (`agent.py` lines 137–140). -/
def promptSuffix : List Char :=
  sl "\n---\n\nProvide your analysis in the specified JSON format."

/-- The prompt f-string of `analyze_resume` (`agent.py` lines 133–140). -/
def buildPrompt (content : List Char) : List Char :=
  promptPrefix ++ content ++ promptSuffix

/-- Outcome of the remote agent call `asyncio.wait_for(agent.run(...))`:
    either a reply text or `asyncio.TimeoutError`. -/
inductive AgentOutcome where
  | reply (text : List Char)
  | timeout
deriving DecidableEq

/-- The user-facing timeout message (`agent.py` line 179). -/
def timeoutMsg : List Char := sl "Analysis request timed out. Please try again."

/-- The prompt `analyze_resume` submits for a given `content` argument
    (`agent.py` lines 128–140): truncation, then the f-string. -/
def submittedPrompt (content : List Char) : List Char :=
  buildPrompt (truncateContent max_analysis_length content)

/-- Embedding of the error-handling control flow of
    `ResumeAnalyzerAgent.analyze_resume` (`agent.py` lines 143–182): a
    timed-out remote call is turned into `ValueError(timeoutMsg)`; a reply is
    normalized by `_parse_agent_response`, whose exceptions the bare
    `except Exception: raise` re-raises unchanged.  The `content` argument
    only shapes the submitted prompt (see `submittedPrompt`); the remote
    reply is the `outcome` parameter. -/
def analyzeResume (_content : List Char) (outcome : AgentOutcome) :
    Except PyErr Json :=
  match outcome with
  | .timeout => .error (.valueError timeoutMsg)
  | .reply t => parseAgentResponse t

/-! ### Request validation (`models.py`) and the `/analyze` endpoint
    (`main.py`) -/

/-- Pydantic length-constraint message for `min_length=10`. -/
def minLenMsg : List Char := sl "String should have at least 10 characters"

/-- Pydantic length-constraint message for `max_length=10000`. -/
def maxLenMsg : List Char := sl "String should have at most 10000 characters"

/-- The `validate_content` message (`models.py` line 29). -/
def emptyMsg : List Char := sl "Content cannot be empty or whitespace"

/-- Embedding of validation of `ResumeAnalysisRequest.content`
    (`models.py` lines 11–30): the pydantic `min_length`/`max_length`
    constraints run on the raw value, then `validate_content` rejects
    all-whitespace content and returns the stripped string. -/
def validateContentField (c : List Char) : Except (List Char) (List Char) :=
  if c.length < 10 then .error minLenMsg
  else if c.length > 10000 then .error maxLenMsg
  else if pyStrip c = [] then .error emptyMsg
  else .ok (pyStrip c)

/-- An HTTP outcome of `POST /analyze`: a 200 body, or an error status with
    its detail message. -/
inductive HttpResult where
  | ok (analysis : Json)
  | error (status : Nat) (detail : List Char)

/-- HTTP status of an outcome. -/
def statusOf : HttpResult → Nat
  | .ok _ => 200
  | .error s _ => s

/-- The `except` clauses of the `/analyze` handler (`main.py` lines
    299–312): `ValueError` becomes 400 with `str(e)` as detail, any other
    exception becomes 500 with a fixed non-leaking message. -/
def httpOfAnalysis (r : Except PyErr Json) : HttpResult :=
  match r with
  | .ok a => .ok a
  | .error (.valueError m) => .error 400 m
  | .error _ =>
    .error 500 (sl "An error occurred during resume analysis. Please try again later.")

/-- Embedding of `POST /analyze` (`main.py` lines 262–312): FastAPI
    validates the request body against `ResumeAnalysisRequest` first,
    answering 422 for schema violations (its documented default for request
    validation errors) without running the handler; otherwise the handler
    calls `analyze_resume` on the validated (stripped) content and maps its
    outcome to HTTP. -/
def postAnalyze (rawContent : List Char) (outcome : AgentOutcome) : HttpResult :=
  match validateContentField rawContent with
  | .error e => .error 422 e
  | .ok validated => httpOfAnalysis (analyzeResume validated outcome)

/-! ### Definitions supporting the claims -/

/-- The backtick character, via its code point. -/
def backtick : Char := Char.ofNat 96

/-- A reply consisting of `T` wrapped in a tagged fenced code block. -/
def wrapJsonFence (T : List Char) : List Char :=
  sl "```json\n" ++ T ++ sl "\n```"

/-- The first required field missing from an object's keys, in the order
    checked by the code (`score`, then `optimized_content`, then
    `suggestions`). -/
def firstMissingField (kvs : List (List Char × Json)) : List Char :=
  if hasKey kvs (sl "score") = false then sl "score"
  else if hasKey kvs (sl "optimized_content") = false then sl "optimized_content"
  else sl "suggestions"

/-- The index right after the opening fence marker chosen by
    `_parse_agent_response` (the `json_start` local of `agent.py`,
    lines 197 and 201), as a natural number. -/
def jstartOf (r : List Char) : Nat :=
  if containsSub r fenceJson then (pyFindFrom r fenceJson 0 + 7).toNat
  else (pyFindFrom r fence3 0 + 3).toNat

/-- A valid JSON object one of whose string values contains a fenced
    `[1,2]` (used to separate wrapped from unwrapped normalization). -/
def innerFenceReply : List Char :=
  sl "\x7b\"score\": 1, \"optimized_content\": \"x\", \"suggestions\": [], \"r\": \"```[1,2]```\"\x7d"

/-- A reply whose score 150 lies above the allowed range. -/
def clampReplyEx : List Char :=
  sl "\x7b\"score\": 150, \"optimized_content\": \"x\", \"suggestions\": []\x7d"

/-- The decoded key-value pairs of `clampReplyEx`. -/
def clampKvsEx : List (List Char × Json) :=
  [(sl "score", Json.num (.fin ⟨150, 0⟩)),
   (sl "optimized_content", Json.str (sl "x")),
   (sl "suggestions", Json.arr [])]

/-- A reply with an opening tagged fence but no closing fence. -/
def unclosedFenceReply : List Char := sl "```json\n\x7b\"a\":1\x7d"

/-! ### Lemmas about the string primitives -/

theorem fence3_eq : fence3 = [backtick, backtick, backtick] := by decide

theorem fenceOpen_eq : sl "```json\n" = fenceJson ++ ['\n'] := by decide

theorem fenceClose_eq : sl "\n```" = '\n' :: fence3 := by decide

theorem findIdx0_nil (sub : List Char) :
    findIdx0 sub [] = if sub.isPrefixOf [] then some 0 else none := rfl

theorem findIdx0_cons (sub : List Char) (a : Char) (t : List Char) :
    findIdx0 sub (a :: t) =
      if sub.isPrefixOf (a :: t) then some 0
      else (findIdx0 sub t).map (· + 1) := rfl

theorem findIdx0_of_prefix {sub s : List Char} (h : sub.isPrefixOf s = true) :
    findIdx0 sub s = some 0 := by
  cases s with
  | nil => simp [findIdx0_nil, h]
  | cons a t => simp [findIdx0_cons, h]

theorem findIdx0_none_cons {sub : List Char} {a : Char} {t : List Char}
    (h : findIdx0 sub (a :: t) = none) :
    sub.isPrefixOf (a :: t) = false ∧ findIdx0 sub t = none := by
  rw [findIdx0_cons] at h
  cases hp : sub.isPrefixOf (a :: t) with
  | true => rw [if_pos hp] at h; exact absurd h (by simp)
  | false =>
    rw [if_neg (by rw [hp]; simp)] at h
    exact ⟨rfl, Option.map_eq_none'.mp h⟩

theorem fence3_not_prefix_newline (l : List Char) :
    fence3.isPrefixOf ('\n' :: l) = false := by
  rw [fence3_eq]
  simp [List.isPrefixOf, show (backtick == '\n') = false from by decide]

/-- Occurrences of the plain fence in `T ++ '\n' :: rest` when `T` itself
    contains none: the `'\n'` separator blocks any straddling match, so the
    first occurrence is the first one of `'\n' :: rest`, shifted. -/
theorem findIdx0_fence3_shift (rest : List Char) :
    ∀ T : List Char, findIdx0 fence3 T = none →
      findIdx0 fence3 (T ++ '\n' :: rest) =
        (findIdx0 fence3 ('\n' :: rest)).map (· + T.length)
  | [], _ => by
    cases h' : findIdx0 fence3 ('\n' :: rest) <;> simp [h']
  | a :: T', h => by
    obtain ⟨h0, h1⟩ := findIdx0_none_cons h
    have hpre : fence3.isPrefixOf (a :: (T' ++ '\n' :: rest)) = false := by
      match T' with
      | [] =>
        rw [fence3_eq]
        simp [List.isPrefixOf, show (backtick == '\n') = false from by decide]
      | [b] =>
        rw [fence3_eq]
        simp [List.isPrefixOf, show (backtick == '\n') = false from by decide]
      | b :: c :: T'' =>
        rw [fence3_eq] at h0 ⊢
        simp only [List.cons_append, List.isPrefixOf] at h0 ⊢
        simpa using h0
    have ih := findIdx0_fence3_shift rest T' h1
    rw [List.cons_append, findIdx0_cons, if_neg (by rw [hpre]; simp), ih]
    cases h' : findIdx0 fence3 ('\n' :: rest) <;> simp [h']
    omega

/-- If a string contains no plain fence it cannot contain the tagged one. -/
theorem findIdx0_fenceJson_none :
    ∀ s : List Char, findIdx0 fence3 s = none → findIdx0 fenceJson s = none
  | [], _ => by decide
  | a :: t, h => by
    obtain ⟨h0, h1⟩ := findIdx0_none_cons h
    have hp : fenceJson.isPrefixOf (a :: t) = false := by
      cases hj : fenceJson.isPrefixOf (a :: t) with
      | false => rfl
      | true =>
        exfalso
        have h3 : fence3.isPrefixOf (a :: t) = true :=
          List.isPrefixOf_iff_prefix.mpr
            ((show fence3 <+: fenceJson by decide).trans
              (List.isPrefixOf_iff_prefix.mp hj))
        rw [h3] at h0
        exact Bool.true_eq_false.mp h0
    rw [findIdx0_cons, if_neg (by rw [hp]; simp),
      findIdx0_fenceJson_none t h1]
    rfl

theorem pyStrip_cons_space {c : Char} (s : List Char) (h : isPySpace c = true) :
    pyStrip (c :: s) = pyStrip s := by
  simp [pyStrip, List.dropWhile_cons, h]

theorem pyStrip_append_space {c : Char} (s : List Char) (h : isPySpace c = true) :
    pyStrip (s ++ [c]) = pyStrip s := by
  unfold pyStrip
  rw [List.dropWhile_append]
  by_cases he : (List.dropWhile isPySpace s).isEmpty = true
  · have hnil : List.dropWhile isPySpace s = [] := by simpa using he
    simp [he, hnil, List.dropWhile_cons, h]
  · rw [if_neg he, List.reverse_append]
    simp [List.dropWhile_cons, h]

theorem pySlice_of_le (s : List Char) (a b : Nat) (hab : a ≤ b)
    (hb : b ≤ s.length) :
    pySlice s (a : Int) (b : Int) = (s.drop a).take (b - a) := by
  have han : (a : Int) ≤ (s.length : Int) := by exact_mod_cast hab.trans hb
  have hbn : (b : Int) ≤ (s.length : Int) := by exact_mod_cast hb
  have hba : pyBound s (a : Int) = (a : Int) := by
    unfold pyBound
    rw [if_neg (by omega), min_eq_left han]
  have hbb : pyBound s (b : Int) = (b : Int) := by
    unfold pyBound
    rw [if_neg (by omega), min_eq_left hbn]
  unfold pySlice
  rw [hba, hbb]
  by_cases hlt : (a : Int) < (b : Int)
  · rw [if_pos hlt]
    have h1 : ((a : Int)).toNat = a := by omega
    have h2 : ((b : Int) - (a : Int)).toNat = b - a := by omega
    rw [h1, h2]
  · rw [if_neg hlt]
    have hba' : b = a := by omega
    subst hba'
    simp

/-- Python `s[a:-1]` with a nonnegative start is `dropLast` of the tail. -/
theorem pySlice_neg_one (s : List Char) (a : Nat) :
    pySlice s (a : Int) (-1) = (s.drop a).dropLast := by
  have hba : pyBound s (a : Int) = min (a : Int) s.length := by
    unfold pyBound
    rw [if_neg (by omega)]
  have hbb : pyBound s (-1) = max ((s.length : Int) - 1) 0 := by
    unfold pyBound
    rw [if_pos (by omega)]
    ring_nf
  unfold pySlice
  rw [hba, hbb, List.dropLast_eq_take, List.length_drop]
  by_cases hlt : min (a : Int) s.length < max ((s.length : Int) - 1) 0
  · rw [if_pos hlt]
    have hmin : (min (a : Int) s.length).toNat = min a s.length := by omega
    rw [hmin]
    have hdeq : s.drop (min a s.length) = s.drop a := by
      by_cases hc : a ≤ s.length
      · rw [min_eq_left hc]
      · rw [min_eq_right (by omega), List.drop_eq_nil_of_le (by omega),
          List.drop_eq_nil_of_le (by omega)]
    rw [hdeq]
    congr 1
    omega
  · rw [if_neg hlt]
    have : s.length - a - 1 = 0 := by omega
    rw [this]
    simp

/-! ### Lemmas about the dict operations -/

theorem lookupKey_nil (k : List Char) : lookupKey [] k = none := rfl

theorem lookupKey_cons (p : List Char × Json) (t : List (List Char × Json))
    (k : List Char) :
    lookupKey (p :: t) k = if p.1 = k then some p.2 else lookupKey t k := by
  by_cases h : p.1 = k <;> simp [lookupKey, List.find?_cons, h]

theorem hasKey_nil (k : List Char) : hasKey [] k = false := rfl

theorem hasKey_cons (p : List Char × Json) (t : List (List Char × Json))
    (k : List Char) :
    hasKey (p :: t) k = (decide (p.1 = k) || hasKey t k) := rfl

theorem hasKey_of_lookupKey {kvs : List (List Char × Json)} {k : List Char}
    {v : Json} (h : lookupKey kvs k = some v) : hasKey kvs k = true := by
  induction kvs with
  | nil => simp [lookupKey_nil] at h
  | cons p t ih =>
    rw [lookupKey_cons] at h
    rw [hasKey_cons]
    by_cases hp : p.1 = k
    · simp [hp]
    · rw [if_neg hp] at h
      rw [ih h]
      simp

theorem insertKV_nil (k : List Char) (v : Json) :
    insertKV [] k v = [(k, v)] := rfl

theorem insertKV_cons (k' : List Char) (v' : Json)
    (t : List (List Char × Json)) (k : List Char) (v : Json) :
    insertKV ((k', v') :: t) k v =
      if k' = k then (k', v) :: t else (k', v') :: insertKV t k v := rfl

theorem insertKV_of_lookupKey {kvs : List (List Char × Json)} {k : List Char}
    {v : Json} (h : lookupKey kvs k = some v) : insertKV kvs k v = kvs := by
  induction kvs with
  | nil => simp [lookupKey_nil] at h
  | cons p t ih =>
    obtain ⟨k', v'⟩ := p
    rw [lookupKey_cons] at h
    by_cases hp : k' = k
    · rw [if_pos hp] at h
      rw [insertKV_cons, if_pos hp]
      subst hp
      simp only [Option.some.injEq] at h
      rw [h]
    · rw [if_neg hp] at h
      rw [insertKV_cons, if_neg hp, ih h]

theorem lookupKey_insertKV (kvs : List (List Char × Json)) (k : List Char)
    (v : Json) : lookupKey (insertKV kvs k v) k = some v := by
  induction kvs with
  | nil => rw [insertKV_nil, lookupKey_cons, if_pos rfl]
  | cons p t ih =>
    obtain ⟨k', v'⟩ := p
    rw [insertKV_cons]
    by_cases hp : k' = k
    · rw [if_pos hp, lookupKey_cons, if_pos hp]
    · rw [if_neg hp, lookupKey_cons, if_neg hp, ih]

/-! ### The code-fence extraction on wrapped and unwrapped replies -/

theorem findIdx0_none_of_not_contains {s sub : List Char}
    (h : containsSub s sub = false) : findIdx0 sub s = none := by
  cases hf : findIdx0 sub s with
  | none => rfl
  | some i =>
    unfold containsSub at h
    rw [hf] at h
    simp at h

theorem wrapJsonFence_eq (T : List Char) :
    wrapJsonFence T = fenceJson ++ ('\n' :: (T ++ '\n' :: fence3)) := by
  unfold wrapJsonFence
  rw [fenceOpen_eq, fenceClose_eq]
  simp [List.append_assoc]

/-- On a reply with no fence inside `T`, the fence-stripping step recovers
    exactly the trimmed `T` from the wrapped reply. -/
theorem extract_wrap (T : List Char) (h : containsSub T fence3 = false) :
    extractJsonText (wrapJsonFence T) = pyStrip T := by
  have hT : findIdx0 fence3 T = none := findIdx0_none_of_not_contains h
  have hfind0 : findIdx0 fenceJson (wrapJsonFence T) = some 0 := by
    rw [wrapJsonFence_eq]
    exact findIdx0_of_prefix
      (List.isPrefixOf_iff_prefix.mpr (List.prefix_append _ _))
  have hcontains : containsSub (wrapJsonFence T) fenceJson = true := by
    unfold containsSub
    rw [hfind0]
    rfl
  have hdrop7 : (wrapJsonFence T).drop 7 = '\n' :: (T ++ '\n' :: fence3) := by
    rw [wrapJsonFence_eq, show (7 : Nat) = fenceJson.length from rfl,
      List.drop_left]
  have hfindClose :
      findIdx0 fence3 ((wrapJsonFence T).drop 7) = some (T.length + 2) := by
    rw [hdrop7, findIdx0_cons,
      if_neg (by rw [fence3_not_prefix_newline]; simp),
      findIdx0_fence3_shift fence3 T hT,
      show findIdx0 fence3 ('\n' :: fence3) = some 1 from by decide]
    simp
    omega
  have hpyfindJ : pyFindFrom (wrapJsonFence T) fenceJson 0 = 0 := by
    unfold pyFindFrom
    rw [List.drop_zero, hfind0]
    rfl
  have hpyfind7 :
      pyFindFrom (wrapJsonFence T) fence3 7 = ((T.length + 9 : Nat) : Int) := by
    unfold pyFindFrom
    rw [hfindClose]
  have hlen : (wrapJsonFence T).length = T.length + 12 := by
    rw [wrapJsonFence_eq]
    simp [show fenceJson.length = 7 from rfl, show fence3.length = 3 from rfl]
    omega
  have hslice :
      pySlice (wrapJsonFence T) 7 ((T.length + 9 : Nat) : Int) =
        '\n' :: (T ++ ['\n']) := by
    rw [show (7 : Int) = ((7 : Nat) : Int) from rfl,
      pySlice_of_le _ 7 (T.length + 9) (by omega) (by rw [hlen]; omega),
      hdrop7,
      show T.length + 9 - 7 = (T.length + 1) + 1 from by omega,
      List.take_succ_cons, List.take_append 1]
    simp
  unfold extractJsonText
  rw [if_pos hcontains]
  show pyStrip (pySlice (wrapJsonFence T)
    (pyFindFrom (wrapJsonFence T) fenceJson 0 + 7)
    (pyFindFrom (wrapJsonFence T) fence3
      (pyFindFrom (wrapJsonFence T) fenceJson 0 + 7).toNat)) = pyStrip T
  rw [hpyfindJ, show ((0 : Int) + 7) = (7 : Int) from rfl,
    show (7 : Int).toNat = 7 from rfl, hpyfind7, hslice,
    pyStrip_cons_space _ (by decide), pyStrip_append_space _ (by decide)]

/-- On a reply with no fence at all, the fence-stripping step just trims. -/
theorem extract_plain (T : List Char) (h : containsSub T fence3 = false) :
    extractJsonText T = pyStrip T := by
  have hT : findIdx0 fence3 T = none := findIdx0_none_of_not_contains h
  have hJ : findIdx0 fenceJson T = none := findIdx0_fenceJson_none T hT
  unfold extractJsonText
  rw [if_neg (by unfold containsSub; rw [hJ]; simp),
    if_neg (by unfold containsSub; rw [hT]; simp)]

/-! ### Claim theorems -/

/-- Claim C1 (counterexample): on the reply `"\x7b\x7d"` — a JSON object with
    every required field missing — the normalizer raises
    `ValueError("Missing required field: score")` instead of returning the
    fallback object. -/
theorem parse_missing_field_raises_cex :
    parseAgentResponse (sl "\x7b\x7d") =
      .error (.valueError (sl "Missing required field: score"))
    ∧ parseAgentResponse (sl "\x7b\x7d") ≠ .ok fallbackAnalysis := by
  refine ⟨rfl, ?_⟩
  intro hEq
  rw [show parseAgentResponse (sl "\x7b\x7d") =
    .error (.valueError (sl "Missing required field: score")) from rfl] at hEq
  exact Except.noConfusion hEq

/-- Claim C1 (amended): for every reply whose extracted text decodes to a
    JSON object lacking at least one of the required fields, the normalizer
    raises `ValueError` naming the first missing field (in the order
    `score`, `optimized_content`, `suggestions`) to its caller; the fixed
    fallback is returned only when JSON decoding itself fails. -/
theorem parse_missing_field_raises (r : List Char)
    (kvs : List (List Char × Json))
    (h1 : jsonLoads (extractJsonText r) = some (.obj kvs))
    (h2 : (hasKey kvs (sl "score") && hasKey kvs (sl "optimized_content") &&
      hasKey kvs (sl "suggestions")) = false) :
    parseAgentResponse r =
      .error (.valueError
        (sl "Missing required field: " ++ firstMissingField kvs)) := by
  unfold parseAgentResponse normalizeParsed
  rw [h1]
  cases hs : hasKey kvs (sl "score") with
  | false =>
    simp [normalizeDecoded, requiredFields, checkRequired, pyNotIn,
      firstMissingField, hs]
  | true =>
    cases ho : hasKey kvs (sl "optimized_content") with
    | false =>
      simp [normalizeDecoded, requiredFields, checkRequired, pyNotIn,
        firstMissingField, hs, ho]
    | true =>
      cases hg : hasKey kvs (sl "suggestions") with
      | false =>
        simp [normalizeDecoded, requiredFields, checkRequired, pyNotIn,
          firstMissingField, hs, ho, hg]
      | true =>
        rw [hs, ho, hg] at h2
        simp at h2

/-- Claim C1 (witness): the reply `{"score": 5}` decodes to an object having
    `score` but not `optimized_content`, and the normalizer raises. -/
theorem parse_missing_field_raises_witness :
    parseAgentResponse (sl "\x7b\"score\": 5\x7d") =
      .error (.valueError (sl "Missing required field: optimized_content")) := by
  have h := parse_missing_field_raises (sl "\x7b\"score\": 5\x7d")
    [(sl "score", Json.num (.fin ⟨5, 0⟩))] (by rfl) (by rfl)
  exact h

/-- Claim C2 (counterexample): for the valid JSON object `innerFenceReply`,
    which contains a fence marker inside a string value, the wrapped reply
    normalizes to the fallback while the unwrapped reply raises, so the two
    results differ. -/
theorem fenced_equiv_cex :
    parseAgentResponse (wrapJsonFence innerFenceReply) = .ok fallbackAnalysis
    ∧ parseAgentResponse innerFenceReply =
        .error (.valueError (sl "Missing required field: score"))
    ∧ parseAgentResponse (wrapJsonFence innerFenceReply) ≠
        parseAgentResponse innerFenceReply := by
  refine ⟨rfl, rfl, ?_⟩
  intro hEq
  rw [show parseAgentResponse (wrapJsonFence innerFenceReply) =
      .ok fallbackAnalysis from rfl,
    show parseAgentResponse innerFenceReply =
      .error (.valueError (sl "Missing required field: score")) from rfl] at hEq
  exact Except.noConfusion hEq

/-- Claim C2 (amended): for every reply consisting of a JSON text `T` that
    contains no fence marker itself, wrapped in a tagged fenced code block,
    the normalizer produces exactly the same result as for `T` alone. -/
theorem fenced_equiv (T : List Char) (h : containsSub T fence3 = false) :
    parseAgentResponse (wrapJsonFence T) = parseAgentResponse T := by
  unfold parseAgentResponse
  rw [extract_wrap T h, extract_plain T h]

/-- Claim C2 (witness): the spec's own scenario reply, fenced with a
    language tag, normalizes exactly as its unwrapped JSON. -/
theorem fenced_equiv_witness :
    containsSub
      (sl "\x7b\"score\":150,\"optimized_content\":\"X\",\"suggestions\":[]\x7d")
      fence3 = false
    ∧ parseAgentResponse (wrapJsonFence
        (sl "\x7b\"score\":150,\"optimized_content\":\"X\",\"suggestions\":[]\x7d")) =
      parseAgentResponse
        (sl "\x7b\"score\":150,\"optimized_content\":\"X\",\"suggestions\":[]\x7d") :=
  ⟨rfl, fenced_equiv _ rfl⟩

/-- The clamp of a finite score always lies in `[0, 100]`. -/
theorem clampNum_bounds (q : JNum) :
    pyLeNum (.fin ⟨0, 0⟩) (clampNum (.fin q)) = true
    ∧ pyLeNum (clampNum (.fin q)) (.fin ⟨100, 0⟩) = true := by
  have ht : (0 : Int) < (10 : Int) ^ q.exp := pow_pos (by norm_num) _
  unfold clampNum pyMaxNum pyMinNum
  simp only [pyLeNum, pyLtNum, JNum.le, JNum.lt, decide_eq_true_eq]
  split_ifs <;>
    constructor <;>
      simp_all only [pyLeNum, pyLtNum, JNum.le, JNum.lt, pow_zero, mul_one,
        one_mul, zero_mul, decide_eq_true_eq] <;>
        omega

/-- The validation-and-clamp step on an object holding all required fields
    and a numeric score. -/
theorem normalizeDecoded_score (kvs : List (List Char × Json)) (q : PyNum)
    (h2 : hasKey kvs (sl "optimized_content") = true)
    (h3 : hasKey kvs (sl "suggestions") = true)
    (h4 : lookupKey kvs (sl "score") = some (.num q)) :
    normalizeDecoded (.obj kvs) =
      if (pyLeNum (.fin ⟨0, 0⟩) q && pyLeNum q (.fin ⟨100, 0⟩)) = true then
        .ok (.obj kvs)
      else .ok (.obj (insertKV kvs (sl "score") (.num (clampNum q)))) := by
  have hs : hasKey kvs (sl "score") = true := hasKey_of_lookupKey h4
  have hcheck : checkRequired requiredFields (Json.obj kvs) = .ok () := by
    simp [requiredFields, checkRequired, pyNotIn, hs, h2, h3]
  have hget : getItem (Json.obj kvs) (sl "score") = .ok (Json.num q) := by
    show (match lookupKey kvs (sl "score") with
      | some x => Except.ok x
      | none => Except.error PyErr.keyError) = Except.ok (Json.num q)
    rw [h4]
  unfold normalizeDecoded
  simp only [hcheck, hget, jsonAsNum, setItem]

/-- Claim C3: for every reply decoding to an object with all required fields
    and a numeric `score`: a score outside `[0, 100]` is replaced by
    `max(0, min(100, score))`, which lies in `[0, 100]`; a score inside the
    range leaves the object unchanged; and neither path fails. -/
theorem score_clamp (r : List Char) (kvs : List (List Char × Json)) (q : JNum)
    (h1 : jsonLoads (extractJsonText r) = some (.obj kvs))
    (h2 : hasKey kvs (sl "optimized_content") = true)
    (h3 : hasKey kvs (sl "suggestions") = true)
    (h4 : lookupKey kvs (sl "score") = some (.num (.fin q))) :
    ((pyLeNum (.fin ⟨0, 0⟩) (.fin q) && pyLeNum (.fin q) (.fin ⟨100, 0⟩))
        = false →
      parseAgentResponse r =
        .ok (.obj (insertKV kvs (sl "score") (.num (clampNum (.fin q)))))
      ∧ lookupKey (insertKV kvs (sl "score") (.num (clampNum (.fin q))))
          (sl "score") = some (.num (clampNum (.fin q))))
    ∧ ((pyLeNum (.fin ⟨0, 0⟩) (.fin q) && pyLeNum (.fin q) (.fin ⟨100, 0⟩))
        = true →
      parseAgentResponse r = .ok (.obj kvs))
    ∧ pyLeNum (.fin ⟨0, 0⟩) (clampNum (.fin q)) = true
    ∧ pyLeNum (clampNum (.fin q)) (.fin ⟨100, 0⟩) = true := by
  have hpar : parseAgentResponse r = normalizeDecoded (.obj kvs) := by
    unfold parseAgentResponse normalizeParsed
    rw [h1]
  have hnd := normalizeDecoded_score kvs (.fin q) h2 h3 h4
  refine ⟨fun hf => ⟨?_, lookupKey_insertKV _ _ _⟩, fun ht => ?_,
    (clampNum_bounds q).1, (clampNum_bounds q).2⟩
  · rw [hpar, hnd, if_neg (by simp [hf])]
  · rw [hpar, hnd, if_pos ht]

/-- Claim C3 (witness): a reply with score 150 is normalized to the clamped
    score `min(100, 150) = 100`, within range. -/
theorem score_clamp_witness :
    parseAgentResponse clampReplyEx =
      .ok (.obj (insertKV clampKvsEx (sl "score")
        (.num (clampNum (.fin ⟨150, 0⟩)))))
    ∧ lookupKey (insertKV clampKvsEx (sl "score")
        (.num (clampNum (.fin ⟨150, 0⟩)))) (sl "score")
        = some (.num (clampNum (.fin ⟨150, 0⟩)))
    ∧ pyLeNum (.fin ⟨0, 0⟩) (clampNum (.fin ⟨150, 0⟩)) = true
    ∧ pyLeNum (clampNum (.fin ⟨150, 0⟩)) (.fin ⟨100, 0⟩) = true := by
  have h := score_clamp clampReplyEx clampKvsEx ⟨150, 0⟩
    (by rfl) (by rfl) (by rfl) (by rfl)
  exact ⟨(h.1 (by rfl)).1, (h.1 (by rfl)).2, h.2.2.1, h.2.2.2⟩

/-- Claim C4: content longer than the configured maximum is hard-cut to its
    first `maxLen` characters (no ellipsis appended) before being embedded
    in the prompt; content at or below the maximum is embedded verbatim;
    and the configured default is 10000. -/
theorem truncation_exact (maxLen : Nat) (c : List Char) :
    (c.length > maxLen → truncateContent maxLen c = c.take maxLen)
    ∧ (c.length ≤ maxLen → truncateContent maxLen c = c)
    ∧ (c.length > max_analysis_length →
        submittedPrompt c =
          promptPrefix ++ c.take max_analysis_length ++ promptSuffix)
    ∧ (c.length ≤ max_analysis_length →
        submittedPrompt c = promptPrefix ++ c ++ promptSuffix)
    ∧ max_analysis_length = 10000 := by
  refine ⟨fun h => ?_, fun h => ?_, fun h => ?_, fun h => ?_, rfl⟩
  · unfold truncateContent
    rw [if_pos h]
  · unfold truncateContent
    rw [if_neg (by omega)]
  · unfold submittedPrompt buildPrompt truncateContent
    rw [if_pos h]
  · unfold submittedPrompt buildPrompt truncateContent
    rw [if_neg (by omega)]

/-- Claim C4 (witness): a 5-character content is cut to 3 characters under
    maximum 3, and is embedded verbatim under the default maximum. -/
theorem truncation_exact_witness :
    (sl "hello").length > 3
    ∧ truncateContent 3 (sl "hello") = (sl "hello").take 3
    ∧ (sl "hello").length ≤ max_analysis_length
    ∧ submittedPrompt (sl "hello") = promptPrefix ++ sl "hello" ++ promptSuffix
    ∧ max_analysis_length = 10000 :=
  ⟨by decide, (truncation_exact 3 (sl "hello")).1 (by decide), by decide,
   (truncation_exact 3 (sl "hello")).2.2.2.1 (by decide),
   (truncation_exact 3 (sl "hello")).2.2.2.2⟩

/-- Claim C6: a timed-out remote call surfaces from `analyze_resume` as
    `ValueError` carrying exactly the user-facing timeout message, and the
    `/analyze` endpoint maps it to a 400 response with that same message as
    detail. -/
theorem timeout_maps_to_400 (c v : List Char)
    (h : validateContentField c = .ok v) :
    analyzeResume v AgentOutcome.timeout = .error (.valueError timeoutMsg)
    ∧ postAnalyze c AgentOutcome.timeout = .error 400 timeoutMsg := by
  refine ⟨rfl, ?_⟩
  unfold postAnalyze
  rw [h]
  rfl

/-- Claim C6 (witness): a concrete valid request timing out yields the 400
    response with the timeout message. -/
theorem timeout_maps_to_400_witness :
    analyzeResume (sl "Software Engineer with 5 years of Python")
      AgentOutcome.timeout = .error (.valueError timeoutMsg)
    ∧ postAnalyze (sl "Software Engineer with 5 years of Python")
        AgentOutcome.timeout = .error 400 timeoutMsg :=
  timeout_maps_to_400 _ _ (by rfl)

/-- Claim C7: a request whose content consists only of whitespace characters
    is rejected by validation with a client error — short ones by the
    length constraint, the rest by `validate_content` — and the endpoint
    answers 422 without the agent outcome ever mattering. -/
theorem whitespace_rejected (c : List Char)
    (h : ∀ ch ∈ c, isPySpace ch = true) :
    validateContentField c =
      .error (if c.length < 10 then minLenMsg
        else if c.length > 10000 then maxLenMsg else emptyMsg)
    ∧ ∀ o : AgentOutcome, postAnalyze c o =
        .error 422 (if c.length < 10 then minLenMsg
          else if c.length > 10000 then maxLenMsg else emptyMsg) := by
  have hstrip : pyStrip c = [] := by
    unfold pyStrip
    rw [List.dropWhile_eq_nil_iff.mpr h]
    rfl
  have hval : validateContentField c =
      .error (if c.length < 10 then minLenMsg
        else if c.length > 10000 then maxLenMsg else emptyMsg) := by
    unfold validateContentField
    by_cases h10 : c.length < 10
    · rw [if_pos h10, if_pos h10]
    · rw [if_neg h10, if_neg h10]
      by_cases hmax : c.length > 10000
      · rw [if_pos hmax, if_pos hmax]
      · rw [if_neg hmax, if_neg hmax, if_pos hstrip]
  exact ⟨hval, fun o => by unfold postAnalyze; rw [hval]⟩

/-- Claim C7 (witness): ten spaces pass the length constraint but are
    rejected by `validate_content`, independent of the agent. -/
theorem whitespace_rejected_witness :
    validateContentField (sl "          ") = .error emptyMsg
    ∧ postAnalyze (sl "          ") (AgentOutcome.reply (sl "x")) =
        .error 422 emptyMsg := by
  have h := whitespace_rejected (sl "          ") (by decide)
  exact ⟨h.1, h.2 (AgentOutcome.reply (sl "x"))⟩

/-- Claim C8 (counterexample): a 5-character content is rejected with
    status 422 (FastAPI's default for request-validation errors), not the
    claimed 400. -/
theorem short_content_cex :
    statusOf (postAnalyze (sl "12345") (AgentOutcome.reply (sl "ok"))) = 422
    ∧ statusOf (postAnalyze (sl "12345") (AgentOutcome.reply (sl "ok"))) ≠ 400 :=
  ⟨by rfl, by decide⟩

/-- Claim C8 (amended): a `POST /analyze` whose content is 5 characters long
    is rejected by schema validation with an HTTP 422 response carrying the
    minimum-length message, whatever the agent would have answered. -/
theorem short_content_422 (o : AgentOutcome) :
    postAnalyze (sl "12345") o = .error 422 minLenMsg := by
  unfold postAnalyze
  rw [show validateContentField (sl "12345") = .error minLenMsg from rfl]

/-- Claim C9: the 10-character minimum is checked on the raw content and the
    validator then returns the stripped string, so `"   abc    "` (10 raw
    characters) is accepted and the orchestrator receives the 3-character
    string `"abc"`. -/
theorem strip_after_min_length :
    (sl "   abc    ").length = 10
    ∧ validateContentField (sl "   abc    ") = .ok (sl "abc")
    ∧ (sl "abc").length = 3
    ∧ ∀ o : AgentOutcome, postAnalyze (sl "   abc    ") o =
        httpOfAnalysis (analyzeResume (sl "abc") o) := by
  refine ⟨rfl, by rfl, rfl, fun o => ?_⟩
  unfold postAnalyze
  rw [show validateContentField (sl "   abc    ") = .ok (sl "abc") from by rfl]

theorem pyFindFrom_nonneg_of_contains {s sub : List Char}
    (h : containsSub s sub = true) : 0 ≤ pyFindFrom s sub 0 := by
  unfold containsSub at h
  unfold pyFindFrom
  rw [List.drop_zero]
  cases hf : findIdx0 sub s with
  | some i =>
    show (0 : Int) ≤ ((i + 0 : Nat) : Int)
    omega
  | none =>
    rw [hf] at h
    simp at h

/-- Claim C10: when the reply contains an opening fence but no closing one,
    the `find` for the closing fence returns `-1`, so the extracted text is
    the trimmed substring from after the opening marker up to but excluding
    the reply's final character, and normalization proceeds on that
    truncated string. -/
theorem missing_closing_fence (r : List Char)
    (h1 : containsSub r fence3 = true)
    (h2 : pyFindFrom r fence3 (jstartOf r) = -1) :
    extractJsonText r = pyStrip ((r.drop (jstartOf r)).dropLast)
    ∧ parseAgentResponse r =
        normalizeParsed (jsonLoads (pyStrip ((r.drop (jstartOf r)).dropLast))) := by
  have hex : extractJsonText r = pyStrip ((r.drop (jstartOf r)).dropLast) := by
    by_cases hj : containsSub r fenceJson = true
    · have hnn : 0 ≤ pyFindFrom r fenceJson 0 := pyFindFrom_nonneg_of_contains hj
      have hjs : ((jstartOf r : Nat) : Int) = pyFindFrom r fenceJson 0 + 7 := by
        unfold jstartOf
        rw [if_pos hj]
        omega
      unfold extractJsonText
      rw [if_pos hj]
      show pyStrip (pySlice r (pyFindFrom r fenceJson 0 + 7)
        (pyFindFrom r fence3 (pyFindFrom r fenceJson 0 + 7).toNat)) =
        pyStrip ((r.drop (jstartOf r)).dropLast)
      rw [← hjs, Int.toNat_natCast, h2, pySlice_neg_one]
    · have hnn : 0 ≤ pyFindFrom r fence3 0 := pyFindFrom_nonneg_of_contains h1
      have hjs : ((jstartOf r : Nat) : Int) = pyFindFrom r fence3 0 + 3 := by
        unfold jstartOf
        rw [if_neg hj]
        omega
      unfold extractJsonText
      rw [if_neg hj, if_pos h1]
      show pyStrip (pySlice r (pyFindFrom r fence3 0 + 3)
        (pyFindFrom r fence3 (pyFindFrom r fence3 0 + 3).toNat)) =
        pyStrip ((r.drop (jstartOf r)).dropLast)
      rw [← hjs, Int.toNat_natCast, h2, pySlice_neg_one]
  exact ⟨hex, by unfold parseAgentResponse; rw [hex]⟩

/-- Claim C10 (witness): the reply `"```json\n{"a":1}"` has no closing
    fence, so the extracted text drops the final `}` and parsing proceeds
    on the truncated (invalid) string. -/
theorem missing_closing_fence_witness :
    extractJsonText unclosedFenceReply =
      pyStrip ((unclosedFenceReply.drop (jstartOf unclosedFenceReply)).dropLast)
    ∧ parseAgentResponse unclosedFenceReply =
        normalizeParsed (jsonLoads (pyStrip
          ((unclosedFenceReply.drop (jstartOf unclosedFenceReply)).dropLast))) :=
  missing_closing_fence unclosedFenceReply (by rfl) (by rfl)

end CVAnalyzer
